import Mathlib

/-!
Shallow embedding of the @strapi/client resource path-resolution, query-string
serialization, payload-wrapping and file query-parameter validation logic.

Sources embedded here:
- `src/utilities` (`exports.ts`) : `URLHelper.appendQueryParams` and its inner
  recursive `appendParam` helper, together with the `URLSearchParams`
  serialization (application/x-www-form-urlencoded) it relies on.
- `src/content-types/abstract.ts` : `AbstractContentTypeManager` and its
  `_pluginName`, `_pluginPrefix` and `_rootPath` getters.
- `src/content-types/constants.ts` : the well-known resource registries,
  `shouldWrapData` and `pluginsThatDoNotWrapDataAttribute`.
- `src/content-types/collection.ts` : `CollectionTypeManager` (find, findOne,
  create, update, delete and `shouldWrapDataBodyAttribute`).
- `src/content-types/single.ts` : `SingleTypeManager` (find, update, delete).
- `src/validators` : `validateFileQueryParams`.

JavaScript runtime values that flow through these functions are modelled by the
`JSValue` inductive below; numbers are modelled as integers (every numeric
value exercised by the specification is a small integer, where JavaScript
number formatting agrees with integer formatting).
-/

namespace StrapiClient

/-- Model of the JavaScript values that appear in query parameters and request
payloads: strings, numbers (restricted to integers), booleans, `null`,
`undefined`, arrays and plain objects (ordered own-enumerable entries). -/
inductive JSValue where
  | str (s : String)
  | num (n : Int)
  | bool (b : Bool)
  | null
  | undefined
  | arr (elems : List JSValue)
  | obj (entries : List (String × JSValue))
deriving Repr

/-- Whether a value is the JavaScript `undefined` value (the `typeof item ===
"undefined"` / `value === undefined` tests of the source). -/
def JSValue.isUndef : JSValue → Bool
  | .undefined => true
  | _ => false

/-- JavaScript `typeof` operator on a `JSValue` (`typeof null` is `"object"`,
and `typeof` of an array is also `"object"`). -/
def jsTypeof : JSValue → String
  | .str _ => "string"
  | .num _ => "number"
  | .bool _ => "boolean"
  | .null => "object"
  | .undefined => "undefined"
  | .arr _ => "object"
  | .obj _ => "object"

/-- JavaScript `Array.isArray`. -/
def jsIsArray : JSValue → Bool
  | .arr _ => true
  | _ => false

mutual

/-- JavaScript `String(v)` conversion: strings unchanged, numbers and booleans
printed, `null` and `undefined` printed as their names, arrays joined by
commas with `null`/`undefined` elements rendered empty (the
`Array.prototype.toString` / `join` behaviour), plain objects rendered as
`[object Object]`. -/
def jsString : JSValue → String
  | .str s => s
  | .num n => toString n
  | .bool b => Bool.rec "false" "true" b
  | .null => "null"
  | .undefined => "undefined"
  | .arr xs => String.intercalate "," (jsArrayElemStrings xs)
  | .obj _ => "[object Object]"

/-- Element renderings used by JavaScript `Array.prototype.join`:
`null` and `undefined` become the empty string, everything else uses
`String(v)`. -/
def jsArrayElemStrings : List JSValue → List String
  | [] => []
  | .null :: rest => "" :: jsArrayElemStrings rest
  | .undefined :: rest => "" :: jsArrayElemStrings rest
  | x :: rest => jsString x :: jsArrayElemStrings rest

end

/-- Uppercase hexadecimal digit for a value below 16. -/
def hexDigitUpper (n : Nat) : Char :=
  if n < 10 then Char.ofNat (48 + n) else Char.ofNat (55 + n)

/-- UTF-8 bytes of a character, as natural numbers. -/
def utf8Bytes (c : Char) : List Nat :=
  let n := c.toNat
  if n < 0x80 then [n]
  else if n < 0x800 then
    [0xC0 ||| (n >>> 6), 0x80 ||| (n &&& 0x3F)]
  else if n < 0x10000 then
    [0xE0 ||| (n >>> 12), 0x80 ||| ((n >>> 6) &&& 0x3F), 0x80 ||| (n &&& 0x3F)]
  else
    [0xF0 ||| (n >>> 18), 0x80 ||| ((n >>> 12) &&& 0x3F),
      0x80 ||| ((n >>> 6) &&& 0x3F), 0x80 ||| (n &&& 0x3F)]

/-- Whether a character is left unescaped by the
application/x-www-form-urlencoded serializer used by `URLSearchParams.toString`
(ASCII alphanumerics and `*`, `-`, `.`, `_`). -/
def isFormUnreserved (c : Char) : Bool :=
  (48 ≤ c.toNat && c.toNat ≤ 57) ||
  (65 ≤ c.toNat && c.toNat ≤ 90) ||
  (97 ≤ c.toNat && c.toNat ≤ 122) ||
  c = '*' || c = '-' || c = '.' || c = '_'

/-- Percent-encoding of a single byte, e.g. byte 0x3A becomes `%3A`. -/
def percentEncodeByte (b : Nat) : String :=
  "%" ++ String.singleton (hexDigitUpper (b / 16)) ++ String.singleton (hexDigitUpper (b % 16))

/-- Encoding of one character under the application/x-www-form-urlencoded
serializer: unreserved characters kept, space becomes `+`, every other
character is percent-encoded per UTF-8 byte. -/
def formEncodeChar (c : Char) : String :=
  if isFormUnreserved c then String.singleton c
  else if c = ' ' then "+"
  else String.join ((utf8Bytes c).map percentEncodeByte)

/-- Encoding of a whole string under the application/x-www-form-urlencoded
serializer (the encoding `URLSearchParams.toString` applies to each key and
each value). -/
def formEncode (s : String) : String :=
  String.join (s.toList.map formEncodeChar)

/-- `URLSearchParams.toString`: each appended (key, value) pair is rendered as
`encodedKey=encodedValue`, pairs joined by `&`, in append order. -/
def searchParamsToString (pairs : List (String × String)) : String :=
  String.intercalate "&" (pairs.map (fun p => formEncode p.1 ++ "=" ++ formEncode p.2))

mutual

/-- The recursive `appendParam` closure inside `URLHelper.appendQueryParams`
(src/utilities, `exports.ts` lines 98-117), rendered as the ordered list of
(key, value) pairs it appends to the `URLSearchParams` accumulator:
- arrays: `undefined` elements are filtered out first, the remaining elements
  are appended in order as `key[0]`, `key[1]`, ... with their `String(...)`
  form;
- non-null objects: recurse into each own-enumerable entry as `key[subKey]`;
- `undefined`: nothing is appended;
- any other value (including `null`): a single pair `key = String(value)`. -/
def appendParam (key : String) : JSValue → List (String × String)
  | .arr elems =>
    ((elems.filter (fun item => !JSValue.isUndef item)).enum).map
      (fun p => (key ++ "[" ++ toString p.1 ++ "]", jsString p.2))
  | .obj entries => appendParamEntries key entries
  | .undefined => []
  | v => [(key, jsString v)]

/-- Sequential recursion of `appendParam` over the entries of an object value,
in entry (insertion) order. -/
def appendParamEntries (key : String) : List (String × JSValue) → List (String × String)
  | [] => []
  | (subKey, subValue) :: rest =>
    appendParam (key ++ "[" ++ subKey ++ "]") subValue ++ appendParamEntries key rest

end

/-- Top-level loop of `URLHelper.appendQueryParams`: each own-enumerable entry
of the query-parameter object is processed in order, entries whose value is
`undefined` being skipped, accumulating appended pairs left to right. -/
def collectParams (queryParams : List (String × JSValue)) : List (String × String) :=
  queryParams.foldl
    (fun acc kv => if !JSValue.isUndef kv.2 then acc ++ appendParam kv.1 kv.2 else acc) []

/-- `URLHelper.appendQueryParams` (src/utilities, `exports.ts` lines 88-132):
returns the URL unchanged when no query parameters are given or when they
serialize to an empty query string, and otherwise appends `?` followed by the
`URLSearchParams` serialization of the collected pairs. -/
def appendQueryParams (url : String) (queryParams : Option (List (String × JSValue))) : String :=
  match queryParams with
  | none => url
  | some qp =>
    let queryString := searchParamsToString (collectParams qp)
    if queryString = "" then url else url ++ "?" ++ queryString

/-- Plugin configuration parameters of `ContentTypeManagerOptions`
(src/content-types/abstract.ts): a plugin name, and an optional route prefix
whose explicit value (including the empty string) overrides the default of
prefixing routes with the plugin name. -/
structure PluginOptions where
  name : String
  /-- The optional `plugin.prefix` route-prefix override of the source
  (`prefix` is a reserved word in Lean, hence the shortened field name). -/
  pfx : Option String := none
deriving Repr, DecidableEq

/-- `ContentTypeManagerOptions` (src/content-types/abstract.ts): the resource
name, an optional path override, and optional plugin configuration. -/
structure ContentTypeManagerOptions where
  resource : String
  path : Option String := none
  plugin : Option PluginOptions := none
deriving Repr, DecidableEq

/-- The `_pluginName` getter of `AbstractContentTypeManager`
(`this._options.plugin?.name`). -/
def pluginNameOf (o : ContentTypeManagerOptions) : Option String :=
  o.plugin.map PluginOptions.name

/-- The `_pluginPrefix` getter of `AbstractContentTypeManager`
(src/content-types/abstract.ts lines 89-102): an explicitly set plugin prefix
(including the empty string) is returned as-is; otherwise, when a plugin is
specified, the plugin name is returned provided it is truthy (non-empty);
otherwise there is no prefix. -/
def pluginPrefixOf (o : ContentTypeManagerOptions) : Option String :=
  match o.plugin with
  | none => none
  | some p =>
    match p.pfx with
    | some pre => some pre
    | none => if p.name = "" then none else some p.name

/-- Fall-through of `_rootPath` once the path override is falsy: a truthy
plugin prefix yields `/prefix/resource`, otherwise `/resource`. -/
def rootPathNoOverride (o : ContentTypeManagerOptions) : String :=
  match pluginPrefixOf o with
  | some pre => if pre = "" then "/" ++ o.resource else "/" ++ pre ++ "/" ++ o.resource
  | none => "/" ++ o.resource

/-- The `_rootPath` getter of `AbstractContentTypeManager`
(src/content-types/abstract.ts lines 113-124): `if (this._path) return
this._path;` — a truthy (present and non-empty) path override is returned
verbatim; otherwise `if (prefix)` — a truthy (present and non-empty) plugin
prefix yields `/prefix/resource`; otherwise `/resource`. -/
def rootPath (o : ContentTypeManagerOptions) : String :=
  match o.path with
  | some p => if p = "" then rootPathNoOverride o else p
  | none => rootPathNoOverride o

/-- Static registry `WELL_KNOWN_COLLECTIONS` of
src/content-types/constants.ts: collection resources with special API
contracts, keyed by resource name; value = plugin configuration plus whether
the contract wraps payloads in a `data` attribute. -/
def WELL_KNOWN_COLLECTIONS : List (String × (PluginOptions × Bool)) :=
  [("users", (⟨"users-permissions", some ""⟩, false))]

/-- Static registry `WELL_KNOWN_SINGLES` of src/content-types/constants.ts:
currently empty. -/
def WELL_KNOWN_SINGLES : List (String × (PluginOptions × Bool)) := []

/-- `shouldWrapData` of src/content-types/constants.ts lines 109-121: regular
content-types (no plugin) wrap; otherwise the merged well-known registries are
searched for a config whose plugin name matches, and its `wrapsData` flag is
used, defaulting to `true` when no entry matches. -/
def shouldWrapData (pluginName : Option String) : Bool :=
  match pluginName with
  | none => true
  | some n =>
    match (WELL_KNOWN_COLLECTIONS ++ WELL_KNOWN_SINGLES).find?
        (fun c => c.2.1.name = n) with
    | some c => c.2.2
    | none => true

/-- `pluginsThatDoNotWrapDataAttribute` of src/content-types/constants.ts:
the static list of plugin names whose payloads are not wrapped in a `data`
attribute. -/
def pluginsThatDoNotWrapDataAttribute : List String := ["users-permissions"]

/-- `CollectionTypeManager.shouldWrapDataBodyAttribute`
(src/content-types/collection.ts lines 52-54):
`!pluginsThatDoNotWrapDataAttribute.includes(this._pluginName ?? '')`. -/
def shouldWrapDataBodyAttribute (o : ContentTypeManagerOptions) : Bool :=
  !(pluginsThatDoNotWrapDataAttribute.contains ((pluginNameOf o).getD ""))

/-- Lowercase hexadecimal digit for a value below 16. -/
def hexDigitLower (n : Nat) : Char :=
  if n < 10 then Char.ofNat (48 + n) else Char.ofNat (87 + n)

/-- Escaping of one character inside a JSON string literal, per
`JSON.stringify`. -/
def jsonEscapeChar (c : Char) : String :=
  if c = '"' then "\\\""
  else if c = '\\' then "\\\\"
  else if c.toNat = 8 then "\\b"
  else if c.toNat = 9 then "\\t"
  else if c.toNat = 10 then "\\n"
  else if c.toNat = 12 then "\\f"
  else if c.toNat = 13 then "\\r"
  else if c.toNat < 32 then
    "\\u00" ++ String.singleton (hexDigitLower (c.toNat / 16)) ++
      String.singleton (hexDigitLower (c.toNat % 16))
  else String.singleton c

/-- JSON string literal for a string value, per `JSON.stringify`. -/
def jsonQuote (s : String) : String :=
  "\"" ++ String.join (s.toList.map jsonEscapeChar) ++ "\""

mutual

/-- `JSON.stringify` on a `JSValue`; `none` models the JavaScript result
`undefined` (stringifying the `undefined` value itself). Array elements equal
to `undefined` render as `null`; object members whose value stringifies to
`undefined` are omitted. -/
def jsonStringify : JSValue → Option String
  | .str s => some (jsonQuote s)
  | .num n => some (toString n)
  | .bool b => some (Bool.rec "false" "true" b)
  | .null => some "null"
  | .undefined => none
  | .arr xs => some ("[" ++ String.intercalate "," (jsonStringifyElems xs) ++ "]")
  | .obj es =>
    some ("\x7b" ++ String.intercalate "," (jsonStringifyMembers es) ++ "\x7d")

/-- Renderings of the elements of a JSON array under `JSON.stringify`. -/
def jsonStringifyElems : List JSValue → List String
  | [] => []
  | x :: rest => (jsonStringify x).getD "null" :: jsonStringifyElems rest

/-- Renderings of the members of a JSON object under `JSON.stringify`,
omitting members whose value stringifies to `undefined`. -/
def jsonStringifyMembers : List (String × JSValue) → List String
  | [] => []
  | (k, v) :: rest =>
    match jsonStringify v with
    | some s => (jsonQuote k ++ ":" ++ s) :: jsonStringifyMembers rest
    | none => jsonStringifyMembers rest

end

/-- Shape of an HTTP request issued through the injected `HttpClient`: method,
URL, optional serialized body, and explicitly set headers. -/
structure Request where
  method : String
  url : String
  body : Option String := none
  headers : List (String × String) := []
deriving Repr, DecidableEq

/-- Query parameters as passed to a manager operation: `none` models an
omitted argument; `some` carries the own-enumerable entries of the object in
insertion order. -/
def QueryParams := Option (List (String × JSValue))

/-- URL shaping shared by every manager operation: start from a base path and
append query parameters only when the argument was provided (`if (queryParams)
{ url = URLHelper.appendQueryParams(url, queryParams) }`). -/
def shapeUrl (base : String) (queryParams : Option (List (String × JSValue))) : String :=
  match queryParams with
  | none => base
  | some qp => appendQueryParams base (some qp)

/-- `CollectionTypeManager.find` (src/content-types/collection.ts lines
77-92), as the request it issues: GET to the root path with query parameters
appended. -/
def CollectionTypeManager.findReq (o : ContentTypeManagerOptions)
    (queryParams : Option (List (String × JSValue))) : Request :=
  { method := "GET", url := shapeUrl (rootPath o) queryParams }

/-- `CollectionTypeManager.findOne` (src/content-types/collection.ts lines
116-133): GET to `rootPath/documentID` with query parameters appended. -/
def CollectionTypeManager.findOneReq (o : ContentTypeManagerOptions)
    (documentID : String) (queryParams : Option (List (String × JSValue))) : Request :=
  { method := "GET", url := shapeUrl (rootPath o ++ "/" ++ documentID) queryParams }

/-- `CollectionTypeManager.create` (src/content-types/collection.ts lines
153-176): POST to the root path with query parameters appended; the body is
`JSON.stringify(shouldWrapDataBodyAttribute() ? { data } : data)` and the
`Content-Type: application/json` header is set explicitly. -/
def CollectionTypeManager.createReq (o : ContentTypeManagerOptions)
    (data : List (String × JSValue))
    (queryParams : Option (List (String × JSValue))) : Request :=
  { method := "POST"
    url := shapeUrl (rootPath o) queryParams
    body := jsonStringify
      (if shouldWrapDataBodyAttribute o then JSValue.obj [("data", JSValue.obj data)]
        else JSValue.obj data)
    headers := [("Content-Type", "application/json")] }

/-- `CollectionTypeManager.update` (src/content-types/collection.ts lines
204-228): PUT to `rootPath/documentID` with query parameters appended; same
conditional wrapping and header rule as `create`. -/
def CollectionTypeManager.updateReq (o : ContentTypeManagerOptions)
    (documentID : String) (data : List (String × JSValue))
    (queryParams : Option (List (String × JSValue))) : Request :=
  { method := "PUT"
    url := shapeUrl (rootPath o ++ "/" ++ documentID) queryParams
    body := jsonStringify
      (if shouldWrapDataBodyAttribute o then JSValue.obj [("data", JSValue.obj data)]
        else JSValue.obj data)
    headers := [("Content-Type", "application/json")] }

/-- `CollectionTypeManager.delete` (src/content-types/collection.ts lines
253-265): DELETE to `rootPath/documentID` with query parameters appended; no
body. -/
def CollectionTypeManager.deleteReq (o : ContentTypeManagerOptions)
    (documentID : String) (queryParams : Option (List (String × JSValue))) : Request :=
  { method := "DELETE", url := shapeUrl (rootPath o ++ "/" ++ documentID) queryParams }

/-- `SingleTypeManager.find` (src/content-types/single.ts lines 62-76): GET to
the root path with query parameters appended. -/
def SingleTypeManager.findReq (o : ContentTypeManagerOptions)
    (queryParams : Option (List (String × JSValue))) : Request :=
  { method := "GET", url := shapeUrl (rootPath o) queryParams }

/-- `SingleTypeManager.update` (src/content-types/single.ts lines 103-126):
PUT to the root path with query parameters appended; the body is
`JSON.stringify({ data })` — the payload is always wrapped, with no
consultation of the payload-wrapping policy. -/
def SingleTypeManager.updateReq (o : ContentTypeManagerOptions)
    (data : List (String × JSValue))
    (queryParams : Option (List (String × JSValue))) : Request :=
  { method := "PUT"
    url := shapeUrl (rootPath o) queryParams
    body := jsonStringify (JSValue.obj [("data", JSValue.obj data)])
    headers := [("Content-Type", "application/json")] }

/-- `SingleTypeManager.delete` (src/content-types/single.ts lines 152-164):
DELETE to the root path with query parameters appended; no body. -/
def SingleTypeManager.deleteReq (o : ContentTypeManagerOptions)
    (queryParams : Option (List (String × JSValue))) : Request :=
  { method := "DELETE", url := shapeUrl (rootPath o) queryParams }

/-- `FileQueryParams` as consumed by the file query-parameter validator: the
`filters` and `sort` members, each possibly `undefined` (which models both an
absent member and an explicit `undefined`, indistinguishable to the
`!== undefined` tests of the source). -/
structure FileQueryParams where
  filters : JSValue := JSValue.undefined
  sort : JSValue := JSValue.undefined

/-- Error message template for a badly shaped `filters` member
(src/validators): the offending parameter name, the expected shape, the
received `typeof`, and an example. -/
def invalidFiltersMsg (t : String) : String :=
  "Invalid \x27filters\x27 parameter: must be an object, received " ++ t ++
    ". Example: \x7b mime: \x7b $contains: \x27image\x27 \x7d \x7d"

/-- Error message template for a `sort` member that is neither a string nor an
array (src/validators). -/
def invalidSortShapeMsg (t : String) : String :=
  "Invalid \x27sort\x27 parameter: must be a string or array of strings, received " ++ t ++
    ". Examples: \x27name:asc\x27 or [\x27name:asc\x27, \x27createdAt:desc\x27]"

/-- Error message template for a non-string element of an array `sort` member
(src/validators). -/
def invalidSortItemMsg (i : Nat) (t : String) : String :=
  "Invalid \x27sort\x27 parameter: array item at position " ++ toString i ++
    " must be a string, received " ++ t ++
    ". Example format: \x27fieldName:asc\x27 or \x27fieldName:desc\x27"

/-- The indexed for-loop over `queryParams.sort.entries()` in
`validateFileQueryParams`: returns the position and `typeof` of the first
non-string element, if any. -/
def firstNonStringSortItem (i : Nat) : List JSValue → Option (Nat × String)
  | [] => none
  | x :: rest =>
    if jsTypeof x != "string" then some (i, jsTypeof x)
    else firstNonStringSortItem (i + 1) rest

/-- `validateFileQueryParams` (src/validators): a pure, synchronous check —
it performs no request. It fails when `filters` is defined with `typeof`
other than `object`, when `sort` is defined but neither a string nor an
array, or when an array `sort` contains a non-string element; otherwise it
returns successfully. Failure carries a message naming the offending
parameter and its expected shape. -/
def validateFileQueryParams (queryParams : Option FileQueryParams) : Except String Unit :=
  match queryParams with
  | none => Except.ok ()
  | some qp =>
    if !JSValue.isUndef qp.filters && jsTypeof qp.filters != "object" then
      Except.error (invalidFiltersMsg (jsTypeof qp.filters))
    else if JSValue.isUndef qp.sort then Except.ok ()
    else if jsTypeof qp.sort != "string" && !jsIsArray qp.sort then
      Except.error (invalidSortShapeMsg (jsTypeof qp.sort))
    else
      match qp.sort with
      | JSValue.arr items =>
        match firstNonStringSortItem 0 items with
        | some p => Except.error (invalidSortItemMsg p.1 p.2)
        | none => Except.ok ()
      | _ => Except.ok ()

/-- Proof helper: the sort-validation slice of `validateFileQueryParams`,
identical to the code the validator runs once the `filters` check has
passed. -/
def validateSortOnly (s : JSValue) : Except String Unit :=
  if JSValue.isUndef s then Except.ok ()
  else if jsTypeof s != "string" && !jsIsArray s then
    Except.error (invalidSortShapeMsg (jsTypeof s))
  else
    match s with
    | JSValue.arr items =>
      match firstNonStringSortItem 0 items with
      | some p => Except.error (invalidSortItemMsg p.1 p.2)
      | none => Except.ok ()
    | _ => Except.ok ()

/-- `CollectionTypeManager.find` as a state transition: the state of a manager is
its `_options` value, declared `readonly` in `AbstractContentTypeManager` and
never reassigned by any method, so each operation returns the request it
issues together with the state it leaves behind. -/
def CollectionTypeManager.findStep (s : ContentTypeManagerOptions)
    (queryParams : Option (List (String × JSValue))) :
    Request × ContentTypeManagerOptions :=
  (CollectionTypeManager.findReq s queryParams, s)

/-- `CollectionTypeManager.findOne` as a state transition. -/
def CollectionTypeManager.findOneStep (s : ContentTypeManagerOptions)
    (documentID : String) (queryParams : Option (List (String × JSValue))) :
    Request × ContentTypeManagerOptions :=
  (CollectionTypeManager.findOneReq s documentID queryParams, s)

/-- `CollectionTypeManager.create` as a state transition. -/
def CollectionTypeManager.createStep (s : ContentTypeManagerOptions)
    (data : List (String × JSValue)) (queryParams : Option (List (String × JSValue))) :
    Request × ContentTypeManagerOptions :=
  (CollectionTypeManager.createReq s data queryParams, s)

/-- `CollectionTypeManager.update` as a state transition. -/
def CollectionTypeManager.updateStep (s : ContentTypeManagerOptions)
    (documentID : String) (data : List (String × JSValue))
    (queryParams : Option (List (String × JSValue))) :
    Request × ContentTypeManagerOptions :=
  (CollectionTypeManager.updateReq s documentID data queryParams, s)

/-- `CollectionTypeManager.delete` as a state transition. -/
def CollectionTypeManager.deleteStep (s : ContentTypeManagerOptions)
    (documentID : String) (queryParams : Option (List (String × JSValue))) :
    Request × ContentTypeManagerOptions :=
  (CollectionTypeManager.deleteReq s documentID queryParams, s)

/-- `SingleTypeManager.find` as a state transition. -/
def SingleTypeManager.findStep (s : ContentTypeManagerOptions)
    (queryParams : Option (List (String × JSValue))) :
    Request × ContentTypeManagerOptions :=
  (SingleTypeManager.findReq s queryParams, s)

/-- `SingleTypeManager.update` as a state transition. -/
def SingleTypeManager.updateStep (s : ContentTypeManagerOptions)
    (data : List (String × JSValue)) (queryParams : Option (List (String × JSValue))) :
    Request × ContentTypeManagerOptions :=
  (SingleTypeManager.updateReq s data queryParams, s)

/-- `SingleTypeManager.delete` as a state transition. -/
def SingleTypeManager.deleteStep (s : ContentTypeManagerOptions)
    (queryParams : Option (List (String × JSValue))) :
    Request × ContentTypeManagerOptions :=
  (SingleTypeManager.deleteReq s queryParams, s)

/-- Helper: the accumulator-threading fold over the top-level query-parameter
entries concatenates, entry by entry, exactly the pair lists produced by
`appendParam`, in entry order. -/
theorem foldl_appendParam_eq (qp : List (String × JSValue)) (acc : List (String × String)) :
    qp.foldl
        (fun acc kv => if !JSValue.isUndef kv.2 then acc ++ appendParam kv.1 kv.2 else acc) acc
      = acc ++ qp.flatMap (fun kv => if !JSValue.isUndef kv.2 then appendParam kv.1 kv.2 else []) := by
  induction qp generalizing acc with
  | nil => simp
  | cons hd tl ih =>
    rw [List.foldl_cons, List.flatMap_cons]
    cases h : JSValue.isUndef hd.2
    · rw [if_pos (by simp [h]), ih, List.append_assoc, if_pos (by simp [h])]
    · rw [if_neg (by simp [h]), ih, if_neg (by simp [h])]
      simp

/-- Helper: the sequential recursion over the entries of an object value equals the
concatenation of the recursive results, in entry order. -/
theorem appendParamEntries_eq_flatMap (key : String) (entries : List (String × JSValue)) :
    appendParamEntries key entries
      = entries.flatMap (fun e => appendParam (key ++ "[" ++ e.1 ++ "]") e.2) := by
  induction entries with
  | nil => rfl
  | cons hd tl ih =>
    cases hd with
    | mk subKey subValue => simp [appendParamEntries, ih]

/-- Claim C1 counterexample: an options value whose explicit path is set to
the empty string is not resolved to that explicit path — the
`if (this._path)` truthiness test of the source treats it as unset, so the resolved root
path is `/r`, not the set path `""`. -/
theorem c1_counterexample :
    ({ resource := "r", path := some "", plugin := none } : ContentTypeManagerOptions).path
        = some "" ∧
    rootPath { resource := "r", path := some "", plugin := none } = "/r" ∧
    rootPath { resource := "r", path := some "", plugin := none }
      ≠ ({ resource := "r", path := some "", plugin := none } :
          ContentTypeManagerOptions).path.getD "fallback" := by
  refine ⟨rfl, rfl, ?_⟩
  decide

/-- Claim C1 (amended): the resolved root path is determined by exactly one of
three branches checked in fixed order — a non-empty explicit path is returned
(an explicit path equal to the empty string is treated as unset); otherwise,
when the effective prefix is a non-empty string, the result is
`/prefix/resource`; otherwise `/resource`. An explicitly provided plugin
prefix (including the empty string) is the effective prefix, else a non-empty
plugin name; the particular descriptors of the claim resolve to `/N/R` (for
non-empty `N`) and `/R` respectively. -/
theorem c1_root_path_branches (o : ContentTypeManagerOptions) :
    (∀ p, o.path = some p → p ≠ "" → rootPath o = p) ∧
    ((o.path = none ∨ o.path = some "") →
      ((∀ pre, pluginPrefixOf o = some pre → pre ≠ "" →
          rootPath o = "/" ++ pre ++ "/" ++ o.resource) ∧
        ((pluginPrefixOf o = none ∨ pluginPrefixOf o = some "") →
          rootPath o = "/" ++ o.resource))) ∧
    (∀ pl x, o.plugin = some pl → pl.pfx = some x → pluginPrefixOf o = some x) ∧
    (∀ N R, N ≠ "" →
      rootPath { resource := R, path := none, plugin := some ⟨N, none⟩ }
        = "/" ++ N ++ "/" ++ R) ∧
    (∀ N R,
      rootPath { resource := R, path := none, plugin := some ⟨N, some ""⟩ } = "/" ++ R) := by
  refine ⟨?_, ?_, ?_, ?_, ?_⟩
  · intro p hp hne
    simp [rootPath, hp, hne]
  · intro hpath
    constructor
    · intro pre hpre hne
      rcases hpath with h | h <;>
        simp [rootPath, rootPathNoOverride, h, hpre, hne]
    · intro hnone
      rcases hpath with h | h <;> rcases hnone with h2 | h2 <;>
        simp [rootPath, rootPathNoOverride, h, h2]
  · intro pl x hpl hx
    simp [pluginPrefixOf, hpl, hx]
  · intro N R hN
    simp [rootPath, rootPathNoOverride, pluginPrefixOf, hN]
  · intro N R
    simp [rootPath, rootPathNoOverride, pluginPrefixOf]

/-- Claim C1 amended witness: the branch rules applied to the concrete
descriptor for resource `posts` with plugin `blog` and no explicit prefix. -/
theorem c1_root_path_branches_witness :
    rootPath { resource := "posts", path := none, plugin := some ⟨"blog", none⟩ }
      = "/" ++ "blog" ++ "/" ++ "posts" :=
  (c1_root_path_branches { resource := "posts" }).2.2.2.1 "blog" "posts" (by decide)

/-- Claim C2: for every plugin configuration, resource name, and non-empty
explicit path, root-path resolution returns the explicit path verbatim —
the explicit path overrides all plugin configuration. -/
theorem c2_explicit_path_precedence (P : Option PluginOptions) (R X : String) (hX : X ≠ "") :
    rootPath { resource := R, path := some X, plugin := P } = X := by
  simp [rootPath, hX]

/-- Claim C2 witness: the example given by the spec itself — resource `posts`, plugin
`blog` with prefix `custom`, explicit path `/custom/endpoint` resolves to the
explicit path. -/
theorem c2_explicit_path_precedence_witness :
    rootPath
        { resource := "posts", path := some "/custom/endpoint",
          plugin := some ⟨"blog", some "custom"⟩ }
      = "/custom/endpoint" :=
  c2_explicit_path_precedence (some ⟨"blog", some "custom"⟩) "posts" "/custom/endpoint"
    (by decide)

/-- Claim C10: an explicit path option equal to the empty string is not
returned verbatim; resolution behaves exactly as if no explicit path had been
set, falling through to the plugin-prefix / resource-name derivation. -/
theorem c10_empty_path_falls_through (R : String) (P : Option PluginOptions) :
    rootPath { resource := R, path := some "", plugin := P }
        = rootPath { resource := R, path := none, plugin := P } ∧
    rootPath { resource := R, path := some "", plugin := P }
        = rootPathNoOverride { resource := R, path := none, plugin := P } := by
  constructor <;> rfl

/-- Claim C3: payload wrapping is a total function of the plugin name alone —
true when the plugin name is absent, false exactly for `users-permissions`
(the only entry of the static does-not-wrap registry), true for every other
name; consequently the users collection manager sends raw create/update
bodies while a plain manager wraps them in a `data` envelope. -/
theorem c3_payload_wrapping :
    shouldWrapData none = true ∧
    shouldWrapData (some "users-permissions") = false ∧
    (∀ n : String, n ≠ "users-permissions" → shouldWrapData (some n) = true) ∧
    pluginsThatDoNotWrapDataAttribute = ["users-permissions"] ∧
    (∀ o : ContentTypeManagerOptions, pluginNameOf o = none →
      shouldWrapDataBodyAttribute o = true) ∧
    (∀ o : ContentTypeManagerOptions, pluginNameOf o = some "users-permissions" →
      shouldWrapDataBodyAttribute o = false) ∧
    (∀ (o : ContentTypeManagerOptions) (n : String), pluginNameOf o = some n →
      n ≠ "users-permissions" → shouldWrapDataBodyAttribute o = true) ∧
    (CollectionTypeManager.createReq
        { resource := "users", plugin := some ⟨"users-permissions", some ""⟩ }
        [("username", JSValue.str "a")] none)
      = { method := "POST", url := "/users", body := some "\x7b\"username\":\"a\"\x7d",
          headers := [("Content-Type", "application/json")] } ∧
    (∀ data qp,
      (CollectionTypeManager.createReq
          { resource := "users", plugin := some ⟨"users-permissions", some ""⟩ } data qp).body
        = jsonStringify (JSValue.obj data)) ∧
    (∀ data documentID qp,
      (CollectionTypeManager.updateReq
          { resource := "users", plugin := some ⟨"users-permissions", some ""⟩ }
          documentID data qp).body
        = jsonStringify (JSValue.obj data)) ∧
    (∀ data qp,
      (CollectionTypeManager.createReq { resource := "articles" } data qp).body
        = jsonStringify (JSValue.obj [("data", JSValue.obj data)])) := by
  refine ⟨rfl, rfl, ?_, rfl, ?_, ?_, ?_, rfl, fun data qp => rfl, fun data d qp => rfl,
    fun data qp => rfl⟩
  · intro n hn
    simp [shouldWrapData, WELL_KNOWN_COLLECTIONS, WELL_KNOWN_SINGLES, List.find?,
      Ne.symm hn]
  · intro o h
    simp [shouldWrapDataBodyAttribute, pluginsThatDoNotWrapDataAttribute, h]
  · intro o h
    simp [shouldWrapDataBodyAttribute, pluginsThatDoNotWrapDataAttribute, h]
  · intro o n h hn
    simp [shouldWrapDataBodyAttribute, pluginsThatDoNotWrapDataAttribute, h, hn]

/-- Claim C3 witness: the wrapping policy at the concrete plugin name `blog`,
which is not in the does-not-wrap registry, is to wrap. -/
theorem c3_payload_wrapping_witness : shouldWrapData (some "blog") = true :=
  c3_payload_wrapping.2.2.1 "blog" (by decide)

/-- Claim C4: the query-string serializer processes each key/value pair
recursively — arrays drop `undefined` elements before indexing and emit the
rest in order at compacted ascending indices `k[0]`, `k[1]`, ... with their
`String(...)` form (`null` elements are kept and stringified as the literal
text `null`); non-null objects recurse into entries as `k[subKey]` in entry
order; other defined values emit `k = String(v)`; `undefined` emits nothing;
top-level keys are processed in own-enumerable (insertion) order. -/
theorem c4_append_param_algorithm :
    (∀ key elems, appendParam key (JSValue.arr elems) =
      ((elems.filter (fun item => !JSValue.isUndef item)).enum).map
        (fun p => (key ++ "[" ++ toString p.1 ++ "]", jsString p.2))) ∧
    (∀ key entries, appendParam key (JSValue.obj entries) =
      entries.flatMap (fun e => appendParam (key ++ "[" ++ e.1 ++ "]") e.2)) ∧
    (∀ key s, appendParam key (JSValue.str s) = [(key, s)]) ∧
    (∀ key n, appendParam key (JSValue.num n) = [(key, toString n)]) ∧
    (∀ key b, appendParam key (JSValue.bool b) = [(key, jsString (JSValue.bool b))]) ∧
    (∀ key, appendParam key JSValue.null = [(key, "null")]) ∧
    (∀ key, appendParam key JSValue.undefined = []) ∧
    (∀ qp, collectParams qp =
      qp.flatMap (fun kv => if !JSValue.isUndef kv.2 then appendParam kv.1 kv.2 else [])) ∧
    appendParam "a" (JSValue.arr [JSValue.null, JSValue.undefined, JSValue.num 2])
      = [("a[0]", "null"), ("a[1]", "2")] := by
  refine ⟨fun key elems => rfl, ?_, fun key s => rfl, fun key n => rfl, fun key b => rfl,
    fun key => rfl, fun key => rfl, ?_, rfl⟩
  · intro key entries
    rw [show appendParam key (JSValue.obj entries) = appendParamEntries key entries from rfl,
      appendParamEntries_eq_flatMap]
  · intro qp
    rw [collectParams, foldl_appendParam_eq]
    simp

set_option maxRecDepth 4000 in
/-- Claim C5: keys and values are percent-encoded per standard query-string
escaping, and the serialized URLs are bit-exact — the three contract examples
and the combined find scenario of the spec produce exactly the expected
strings, with method GET. -/
theorem c5_bit_exact_serialization :
    appendQueryParams "" (some [("sort", JSValue.str "name:asc")]) = "?sort=name%3Aasc" ∧
    appendQueryParams ""
        (some [("sort", JSValue.arr [JSValue.str "name:asc", JSValue.str "size:desc"])])
      = "?sort%5B0%5D=name%3Aasc&sort%5B1%5D=size%3Adesc" ∧
    appendQueryParams ""
        (some [("filters", JSValue.obj [("mime", JSValue.obj [("$contains",
          JSValue.str "image")])])])
      = "?filters%5Bmime%5D%5B%24contains%5D=image" ∧
    CollectionTypeManager.findReq { resource := "articles" } (some
        [("locale", JSValue.str "en"),
          ("populate", JSValue.str "author"),
          ("fields", JSValue.arr [JSValue.str "title", JSValue.str "description"]),
          ("filters", JSValue.obj [("published", JSValue.bool true)]),
          ("sort", JSValue.str "createdAt:desc"),
          ("pagination", JSValue.obj [("page", JSValue.num 1),
            ("pageSize", JSValue.num 10)])])
      = { method := "GET",
          url := "/articles?locale=en&populate=author&fields%5B0%5D=title&fields%5B1%5D=description&filters%5Bpublished%5D=true&sort=createdAt%3Adesc&pagination%5Bpage%5D=1&pagination%5BpageSize%5D=10" } :=
  ⟨rfl, rfl, rfl, rfl⟩

/-- Claim C6 (code bug): `SingleTypeManager.update` never consults the
payload-wrapping policy — its PUT body is always the JSON serialization of
the wrapped payload, even for a `users-permissions` plugin identity where
both wrapping-policy functions say the payload must be sent raw (and where
the single-manager test of the repository itself expects the raw payload). -/
theorem c6_single_update_always_wraps :
    (SingleTypeManager.updateReq
        { resource := "settings", plugin := some ⟨"users-permissions", some ""⟩ }
        [("setting1", JSValue.str "value1"), ("setting2", JSValue.str "value2")] none)
      = { method := "PUT", url := "/settings",
          body := some
            "\x7b\"data\":\x7b\"setting1\":\"value1\",\"setting2\":\"value2\"\x7d\x7d",
          headers := [("Content-Type", "application/json")] } ∧
    shouldWrapData (some "users-permissions") = false ∧
    shouldWrapDataBodyAttribute
        { resource := "settings", plugin := some ⟨"users-permissions", some ""⟩ } = false ∧
    (∀ o data qp, (SingleTypeManager.updateReq o data qp).body
      = jsonStringify (JSValue.obj [("data", JSValue.obj data)])) :=
  ⟨rfl, rfl, rfl, fun _o _data _qp => rfl⟩

/-- Claim C7: for every base path, appending query parameters that are absent
or that serialize to zero key/value pairs returns the base path exactly
unchanged, with no trailing question mark; in particular an empty parameter
object and an empty nested `filters` object append nothing. -/
theorem c7_empty_params_noop (url : String) :
    appendQueryParams url none = url ∧
    appendQueryParams url (some []) = url ∧
    appendQueryParams url (some [("filters", JSValue.obj [])]) = url ∧
    (∀ qp, collectParams qp = [] → appendQueryParams url (some qp) = url) := by
  refine ⟨rfl, rfl, rfl, ?_⟩
  intro qp h
  have hs : searchParamsToString (collectParams qp) = "" := by rw [h]; rfl
  simp [appendQueryParams, hs]

/-- Claim C7 witness: a parameter object holding only an `undefined` value
serializes to zero pairs and leaves the concrete base path unchanged. -/
theorem c7_empty_params_noop_witness :
    appendQueryParams "/articles" (some [("locale", JSValue.undefined)]) = "/articles" :=
  (c7_empty_params_noop "/articles").2.2.2 [("locale", JSValue.undefined)] rfl

/-- Claim C9: root-path resolution is a pure, deterministic function of the
options of the manager; no operation changes the options (they are `readonly`,
set once at construction), and the root path is re-derived identically on
every request, so an operation can never change the root path observed by a
later operation. -/
theorem c9_pure_idempotent_resolution (s : ContentTypeManagerOptions)
    (data : List (String × JSValue)) (documentID : String)
    (qp : Option (List (String × JSValue))) :
    (CollectionTypeManager.findStep s qp).2 = s ∧
    (CollectionTypeManager.findOneStep s documentID qp).2 = s ∧
    (CollectionTypeManager.createStep s data qp).2 = s ∧
    (CollectionTypeManager.updateStep s documentID data qp).2 = s ∧
    (CollectionTypeManager.deleteStep s documentID qp).2 = s ∧
    (SingleTypeManager.findStep s qp).2 = s ∧
    (SingleTypeManager.updateStep s data qp).2 = s ∧
    (SingleTypeManager.deleteStep s qp).2 = s ∧
    (CollectionTypeManager.findStep (CollectionTypeManager.createStep s data qp).2 qp).1
      = (CollectionTypeManager.findStep s qp).1 ∧
    rootPath (CollectionTypeManager.updateStep s documentID data qp).2 = rootPath s ∧
    (CollectionTypeManager.findStep s qp).1.url = appendQueryParams (rootPath s) qp :=
  ⟨rfl, rfl, rfl, rfl, rfl, rfl, rfl, rfl, rfl, rfl, by cases qp <;> rfl⟩

/-- Helper: the indexed sort-item loop reports nothing exactly when every
element of the array has string type. -/
theorem firstNonStringSortItem_eq_none (i : Nat) (items : List JSValue) :
    firstNonStringSortItem i items = none ↔ ∀ x ∈ items, jsTypeof x = "string" := by
  induction items generalizing i with
  | nil => simp [firstNonStringSortItem]
  | cons hd tl ih =>
    by_cases h : jsTypeof hd = "string"
    · simp [firstNonStringSortItem, h, ih]
    · rw [firstNonStringSortItem, if_pos (by simp [h])]
      simp only [reduceCtorEq, false_iff]
      intro hall
      exact h (hall hd (List.mem_cons_self hd tl))

/-- Claim C8: the file query-parameter validation succeeds exactly when
`filters` is undefined or has object type and `sort` is undefined, a string,
or an array of strings; every failure message starts by naming the offending
parameter and its expected shape. The validator is a pure synchronous
function — its result involves no request. -/
theorem c8_validate_file_query_params (qp : FileQueryParams) :
    (validateFileQueryParams (some qp) = Except.ok () ↔
      (JSValue.isUndef qp.filters = true ∨ jsTypeof qp.filters = "object") ∧
      (JSValue.isUndef qp.sort = true ∨ jsTypeof qp.sort = "string" ∨
        ∃ items, qp.sort = JSValue.arr items ∧ ∀ x ∈ items, jsTypeof x = "string")) ∧
    (∀ m, validateFileQueryParams (some qp) = Except.error m →
      (∃ rest,
        m = "Invalid \x27filters\x27 parameter: must be an object, received " ++ rest) ∨
      (∃ rest,
        m = "Invalid \x27sort\x27 parameter: must be a string or array of strings, received "
          ++ rest) ∨
      (∃ (i : Nat) (rest : String),
        m = "Invalid \x27sort\x27 parameter: array item at position " ++ toString i
          ++ " must be a string, received " ++ rest)) ∧
    validateFileQueryParams none = Except.ok () := by
  obtain ⟨f, s⟩ := qp
  have hsplit : ∀ hC : ¬((!JSValue.isUndef f && jsTypeof f != "object") = true),
      validateFileQueryParams (some ⟨f, s⟩) = validateSortOnly s := by
    intro hC
    simp only [validateFileQueryParams]
    rw [if_neg hC]
    rfl
  refine ⟨?_, ?_, rfl⟩
  · by_cases hC : (!JSValue.isUndef f && jsTypeof f != "object") = true
    · have hval : validateFileQueryParams (some ⟨f, s⟩)
          = Except.error (invalidFiltersMsg (jsTypeof f)) := by
        simp only [validateFileQueryParams]
        rw [if_pos hC]
      rw [Bool.and_eq_true, Bool.not_eq_true', bne_iff_ne] at hC
      rw [hval]
      simp [hC.1, hC.2]
    · have hfok : JSValue.isUndef f = true ∨ jsTypeof f = "object" := by
        have h2 := hC
        rw [Bool.and_eq_true, not_and_or] at h2
        rcases h2 with h | h
        · left; simpa using h
        · right; simpa using h
      rw [hsplit hC]
      cases s with
      | undefined => exact ⟨fun _ => ⟨hfok, Or.inl rfl⟩, fun _ => rfl⟩
      | str str => exact ⟨fun _ => ⟨hfok, Or.inr (Or.inl rfl)⟩, fun _ => rfl⟩
      | num n =>
        constructor
        · intro h
          exact Except.noConfusion h
        · rintro ⟨-, hu | ht | ⟨items2, heq, hall⟩⟩
          · exact Bool.noConfusion hu
          · have h3 : ("number" : String) = "string" := ht
            exact absurd h3 (by decide)
          · exact JSValue.noConfusion heq
      | bool b =>
        constructor
        · intro h
          exact Except.noConfusion h
        · rintro ⟨-, hu | ht | ⟨items2, heq, hall⟩⟩
          · exact Bool.noConfusion hu
          · have h3 : ("boolean" : String) = "string" := ht
            exact absurd h3 (by decide)
          · exact JSValue.noConfusion heq
      | null =>
        constructor
        · intro h
          exact Except.noConfusion h
        · rintro ⟨-, hu | ht | ⟨items2, heq, hall⟩⟩
          · exact Bool.noConfusion hu
          · have h3 : ("object" : String) = "string" := ht
            exact absurd h3 (by decide)
          · exact JSValue.noConfusion heq
      | obj es =>
        constructor
        · intro h
          exact Except.noConfusion h
        · rintro ⟨-, hu | ht | ⟨items2, heq, hall⟩⟩
          · exact Bool.noConfusion hu
          · have h3 : ("object" : String) = "string" := ht
            exact absurd h3 (by decide)
          · exact JSValue.noConfusion heq
      | arr items =>
        rcases h2 : firstNonStringSortItem 0 items with _ | p
        · have harr : validateSortOnly (JSValue.arr items) = Except.ok () := by
            simp [validateSortOnly, JSValue.isUndef, jsTypeof, jsIsArray, h2]
          rw [harr]
          exact ⟨fun _ => ⟨hfok, Or.inr (Or.inr ⟨items, rfl,
            (firstNonStringSortItem_eq_none 0 items).mp h2⟩)⟩, fun _ => rfl⟩
        · have harr : validateSortOnly (JSValue.arr items)
              = Except.error (invalidSortItemMsg p.1 p.2) := by
            simp [validateSortOnly, JSValue.isUndef, jsTypeof, jsIsArray, h2]
          rw [harr]
          constructor
          · intro h
            exact Except.noConfusion h
          · rintro ⟨-, hu | ht | ⟨items2, heq, hall⟩⟩
            · exact Bool.noConfusion hu
            · have h3 : ("object" : String) = "string" := ht
              exact absurd h3 (by decide)
            · cases heq
              rw [← firstNonStringSortItem_eq_none 0 items] at hall
              rw [hall] at h2
              exact Option.noConfusion h2
  · intro m hm
    by_cases hC : (!JSValue.isUndef f && jsTypeof f != "object") = true
    · have hval : validateFileQueryParams (some ⟨f, s⟩)
          = Except.error (invalidFiltersMsg (jsTypeof f)) := by
        simp only [validateFileQueryParams]
        rw [if_pos hC]
      rw [hval, Except.error.injEq] at hm
      subst hm
      left
      refine ⟨jsTypeof f ++ ". Example: \x7b mime: \x7b $contains: \x27image\x27 \x7d \x7d", ?_⟩
      exact String.append_assoc _ _ _
    · rw [hsplit hC] at hm
      cases s with
      | undefined => exact Except.noConfusion hm
      | str str => exact Except.noConfusion hm
      | num n =>
        have hm2 : Except.error (invalidSortShapeMsg "number") = Except.error m := hm
        rw [Except.error.injEq] at hm2
        subst hm2
        right; left
        refine ⟨"number" ++
          ". Examples: \x27name:asc\x27 or [\x27name:asc\x27, \x27createdAt:desc\x27]", ?_⟩
        exact String.append_assoc _ _ _
      | bool b =>
        have hm2 : Except.error (invalidSortShapeMsg "boolean") = Except.error m := hm
        rw [Except.error.injEq] at hm2
        subst hm2
        right; left
        refine ⟨"boolean" ++
          ". Examples: \x27name:asc\x27 or [\x27name:asc\x27, \x27createdAt:desc\x27]", ?_⟩
        exact String.append_assoc _ _ _
      | null =>
        have hm2 : Except.error (invalidSortShapeMsg "object") = Except.error m := hm
        rw [Except.error.injEq] at hm2
        subst hm2
        right; left
        refine ⟨"object" ++
          ". Examples: \x27name:asc\x27 or [\x27name:asc\x27, \x27createdAt:desc\x27]", ?_⟩
        exact String.append_assoc _ _ _
      | obj es =>
        have hm2 : Except.error (invalidSortShapeMsg "object") = Except.error m := hm
        rw [Except.error.injEq] at hm2
        subst hm2
        right; left
        refine ⟨"object" ++
          ". Examples: \x27name:asc\x27 or [\x27name:asc\x27, \x27createdAt:desc\x27]", ?_⟩
        exact String.append_assoc _ _ _
      | arr items =>
        rcases h2 : firstNonStringSortItem 0 items with _ | p
        · have harr : validateSortOnly (JSValue.arr items) = Except.ok () := by
            simp [validateSortOnly, JSValue.isUndef, jsTypeof, jsIsArray, h2]
          rw [harr] at hm
          exact Except.noConfusion hm
        · have harr : validateSortOnly (JSValue.arr items)
              = Except.error (invalidSortItemMsg p.1 p.2) := by
            simp [validateSortOnly, JSValue.isUndef, jsTypeof, jsIsArray, h2]
          rw [harr, Except.error.injEq] at hm
          subst hm
          right; right
          refine ⟨p.1, p.2 ++
            ". Example format: \x27fieldName:asc\x27 or \x27fieldName:desc\x27", ?_⟩
          exact String.append_assoc _ _ _

/-- Claim C8 witness: the validator at the concrete ill-shaped input whose
`filters` member is the string `invalid` produces an error message naming the
`filters` parameter and its expected object shape. -/
theorem c8_validate_file_query_params_witness :
    (∃ rest,
      invalidFiltersMsg "string"
        = "Invalid \x27filters\x27 parameter: must be an object, received " ++ rest) ∨
    (∃ rest,
      invalidFiltersMsg "string"
        = "Invalid \x27sort\x27 parameter: must be a string or array of strings, received "
          ++ rest) ∨
    (∃ (i : Nat) (rest : String),
      invalidFiltersMsg "string"
        = "Invalid \x27sort\x27 parameter: array item at position " ++ toString i
          ++ " must be a string, received " ++ rest) :=
  (c8_validate_file_query_params
    { filters := JSValue.str "invalid", sort := JSValue.undefined }).2.1
    (invalidFiltersMsg "string") rfl

end StrapiClient
